import Mathlib

/-!
Shallow embedding of `servicex_storage` (minio_storage_manager.py and
object_storage_manager.py) and proofs about its quota-enforcement logic.

Timestamps are modelled as `Int` seconds; `timedelta.days` is floor
division by 86400 (`Int.fdiv`).  The thread pool (`executor.map`) returns
results in input order independently of the worker count, so it is
modelled as `List.map` with an explicit, ignored `threads` parameter.
Python's `list.sort` is a stable merge sort and is modelled by
`List.mergeSort`.
-/

namespace ServicexStorage

/-- Python exceptions that the embedded code can raise. -/
inductive PyError where
  | attributeError (msg : String)
  | typeError (msg : String)
  | unboundLocalError (msg : String)
deriving DecidableEq

/-- An object stored in a bucket, as seen through `list_objects` and
`stat_object`: a name, a size in bytes and a last-modified timestamp.
`removeFails` records the backing store's behaviour when
`remove_objects` is asked to delete this object (true = the store
reports a deletion error for it). -/
structure MObject where
  name : String
  size : Int
  last_modified : Int
  removeFails : Bool
deriving DecidableEq

/-- A bucket of the backing store: a name and its objects. -/
structure MBucket where
  name : String
  objects : List MObject
deriving DecidableEq

/-- The observable state of the minio backing store: the list of buckets,
in the order `list_buckets` returns them. -/
structure MinioState where
  buckets : List MBucket
deriving DecidableEq

/-- `BucketInfo = namedtuple('BucketInfo', ['name', 'size', 'last_modified'])`. -/
structure BucketInfo where
  name : String
  size : Int
  last_modified : Int
deriving DecidableEq

/-- `MinioStore.get_bucket_info`: sum the object sizes and track the
minimum object last-modified timestamp, starting from
`datetime.datetime.now()` (so an empty bucket gets `now`). -/
def get_bucket_info (now : Int) (b : MBucket) : BucketInfo :=
  let r := b.objects.foldl
    (fun (acc : Int × Int) obj =>
      (acc.1 + obj.size,
       if obj.last_modified < acc.2 then obj.last_modified else acc.2))
    (0, now)
  { name := b.name, size := r.1, last_modified := r.2 }

/-- `bucket_exists` lookup: the bucket of the state with the given name. -/
def MinioState.findBucket (s : MinioState) (name : String) : Option MBucket :=
  s.buckets.find? (fun b => b.name == name)

/-- Calls `delete_bucket` issues against the minio client after the
initial `bucket_exists` check. -/
inductive MinioOp where
  | removeObjects (bucket : String)
  | removeBucket (bucket : String)
deriving DecidableEq

/-- `MinioStore.delete_bucket`: if the bucket does not exist return
`True` at once (no client calls); otherwise remove the objects, return
`False` if any removal reported an error, else remove the bucket and
return `True`.  The second component is the trace of client calls
issued. -/
def delete_bucket (s : MinioState) (bucket : String) : Bool × List MinioOp :=
  match s.findBucket bucket with
  | none => (true, [])
  | some b =>
    let errors := b.objects.filter (fun o => o.removeFails)
    if errors.length ≠ 0 then (false, [MinioOp.removeObjects bucket])
    else (true, [MinioOp.removeObjects bucket, MinioOp.removeBucket bucket])

/-- `concurrent.futures.ThreadPoolExecutor(max_workers=threads).map f l`:
results are returned in input order whatever the pool size, so the pool
size does not enter the value. -/
def threadPoolMap (threads : Nat) (f : α → β) (l : List α) : List β :=
  let _ := threads
  l.map f

/-- `MinioStore.get_storage_used`: 0 when there are no buckets (the pool
is never built), otherwise the sum of the per-bucket sizes computed by
`get_bucket_info`, fanned out over the thread pool. -/
def get_storage_used (s : MinioState) (threads : Nat) (now : Int) : Int :=
  if s.buckets.length = 0 then 0
  else (threadPoolMap threads (fun b => (get_bucket_info now b).size) s.buckets).sum

/-- `MinioStore.get_file`.  `fetch` is the outcome of
`fget_object` (an exception message on failure).  Result: the Python
outcome of the call, paired with whether `resp.close()`/`resp.release_conn()`
were executed.  On success the `finally` block releases the response; on
a fetch exception the `except` clause only logs, and the `finally` block
then evaluates `resp.close()` with `resp` never assigned, raising
`UnboundLocalError` without any release. -/
def get_file (fetch : Except String Unit) : Except PyError Unit × Bool :=
  match fetch with
  | Except.ok _ => (Except.ok (), true)
  | Except.error _ =>
      (Except.error (PyError.unboundLocalError
        "local variable resp referenced before assignment"), false)

/-- `(datetime.datetime.now() - last_modified).days`: floor division of
the difference in seconds by 86400. -/
def bucketAge (now lm : Int) : Int := Int.fdiv (now - lm) 86400

/-- The sort key of the size pass: `key=lambda x: x.last_modified`. -/
def lastModifiedLe (a b : BucketInfo) : Bool := a.last_modified ≤ b.last_modified

/-- `executor.map(self.get_bucket_info, buckets)` of `cleanup_storage`. -/
def bucketList (s : MinioState) (now : Int) : List BucketInfo :=
  s.buckets.map (get_bucket_info now)

/-- The `old_buckets` list of `cleanup_storage`: plain `(name, age)`
tuples for the buckets whose age exceeds `max_age`. -/
def oldBuckets (s : MinioState) (now max_age : Int) : List (String × Int) :=
  ((bucketList s now).filter
    (fun b => max_age < bucketAge now b.last_modified)).map
    (fun b => (b.name, bucketAge now b.last_modified))

/-- The `new_buckets` list of `cleanup_storage`: the buckets retained by
the age pass, in listing order. -/
def newBuckets (s : MinioState) (now max_age : Int) : List BucketInfo :=
  (bucketList s now).filter (fun b => ¬ max_age < bucketAge now b.last_modified)

/-- `bucket_list.sort(key=lambda x: x.last_modified)`: Python's stable
sort of the retained buckets, modelled by the stable `List.mergeSort`. -/
def sortedCandidates (s : MinioState) (now max_age : Int) : List BucketInfo :=
  (newBuckets s now max_age).mergeSort lastModifiedLe

/-- The size-pass `while` loop of `cleanup_storage`: while the running
total exceeds `max_size` and candidates remain, call `delete_bucket`
(its boolean result is discarded: `deleteOk` abstracts it), append the
bucket name to the cleaned list and subtract its size. -/
def sizePass (deleteOk : String → Bool) (max_size : Int) :
    List BucketInfo → Int → Int × List String
  | [], current => (current, [])
  | b :: rest, current =>
    if max_size < current then
      let _ := deleteOk b.name
      let r := sizePass deleteOk max_size rest (current - b.size)
      (r.1, b.name :: r.2)
    else (current, [])

/-- `MinioStore.cleanup_storage`.  The age pass appends over-age buckets
to `old_buckets` as plain `(name, age)` tuples; submitting their
deletions then evaluates `bucket.name` on a tuple, so as soon as
`old_buckets` is non-empty the first iteration raises `AttributeError`
and nothing is deleted.  With no over-age bucket, the retained buckets
are stably sorted by `last_modified` and the size pass runs. -/
def cleanup_storage (s : MinioState) (deleteOk : String → Bool)
    (now max_size max_age : Int) : Except PyError (Int × List String) :=
  match oldBuckets s now max_age with
  | _ :: _ => Except.error (PyError.attributeError
      "tuple object has no attribute name")
  | [] =>
    let sorted := sortedCandidates s now max_age
    let current_size := (sorted.map (fun b => b.size)).sum
    Except.ok (sizePass deleteOk max_size sorted current_size)

/-- Python call semantics for `MinioStore.cleanup_storage(self, max_size,
max_age)`: `max_age` has no default value, so a call that omits it raises
`TypeError` before the body runs. -/
def cleanup_storage_call (s : MinioState) (deleteOk : String → Bool)
    (now max_size : Int) (max_age? : Option Int) :
    Except PyError (Int × List String) :=
  match max_age? with
  | none => Except.error (PyError.typeError
      "cleanup_storage missing 1 required positional argument max_age")
  | some max_age => cleanup_storage s deleteOk now max_size max_age


/-! ### Concrete store states used in counterexamples and witnesses -/

/-- A reference time: 600 days after the epoch. -/
def tNow : Int := 51840000

/-- Bucket of 60 bytes, last modified 500 days after the epoch
(the spec's scenario bucket `A`). -/
def bucketA : MBucket :=
  { name := "bucketA",
    objects := [{ name := "a1", size := 60, last_modified := 43200000,
                  removeFails := false }] }

/-- Bucket of 600 bytes, last modified 100 days after the epoch
(the spec's scenario bucket `B`). -/
def bucketB : MBucket :=
  { name := "bucketB",
    objects := [{ name := "b1", size := 600, last_modified := 8640000,
                  removeFails := false }] }

/-- The spec's worked scenario: sizes 60 and 600, quota 70. -/
def sSpec : MinioState := { buckets := [bucketA, bucketB] }

/-- A zero-size object at the epoch, shared by the tie-break buckets. -/
def oTie : MObject := { name := "o1", size := 0, last_modified := 0, removeFails := false }

/-- Tie-break bucket listed first, with the alphabetically later name. -/
def bB : MBucket := { name := "bbb", objects := [oTie] }

/-- Tie-break bucket listed second, with the alphabetically earlier name. -/
def bA : MBucket := { name := "aaa", objects := [oTie] }

/-- Two buckets with identical `last_modified`, listed in reverse
alphabetical order. -/
def sC4 : MinioState := { buckets := [bB, bA] }

/-- A store with a single bucket last modified at the epoch. -/
def sC3 : MinioState :=
  { buckets := [{ name := "stale-bucket",
                  objects := [{ name := "s1", size := 5, last_modified := 0,
                                removeFails := false }] }] }

/-- Another store with a single bucket last modified at the epoch. -/
def sC9 : MinioState :=
  { buckets := [{ name := "old-data",
                  objects := [{ name := "d1", size := 12, last_modified := 0,
                                removeFails := false }] }] }

/-- A store holding one empty bucket named `present`. -/
def sC8 : MinioState := { buckets := [{ name := "present", objects := [] }] }

/-- The store of the repository's own unit test
(`test_minio_storage_manager.py`): `bucket1` with objects of sizes
10, 20, 30 and `bucket2` with objects of sizes 100, 200, 300. -/
def sTest : MinioState :=
  { buckets :=
    [{ name := "bucket1",
       objects := [{ name := "object1", size := 10, last_modified := 1633083010,
                     removeFails := false },
                   { name := "object2", size := 20, last_modified := 1633083070,
                     removeFails := false },
                   { name := "object3", size := 30, last_modified := 1633083130,
                     removeFails := false }] },
     { name := "bucket2",
       objects := [{ name := "object4", size := 100, last_modified := 1601547010,
                     removeFails := false },
                   { name := "object5", size := 200, last_modified := 1601547070,
                     removeFails := false },
                   { name := "object6", size := 300, last_modified := 1601547130,
                     removeFails := false }] }] }

/-! ### Helper lemmas -/

theorem sizePass_le_or_all (f : String → Bool) (m : Int) :
    ∀ (l : List BucketInfo) (c : Int),
      (sizePass f m l c).1 ≤ m ∨ (sizePass f m l c).2 = l.map (fun b => b.name) := by
  intro l
  induction l with
  | nil => intro c; right; simp [sizePass]
  | cons b rest ih =>
    intro c
    by_cases h : m < c
    · rcases ih (c - b.size) with h1 | h1
      · left; simpa [sizePass, h] using h1
      · right; simp [sizePass, h, h1]
    · left; simp [sizePass, h]; omega

theorem sizePass_names (f : String → Bool) (m : Int) :
    ∀ (l : List BucketInfo) (c : Int),
      (sizePass f m l c).2
        = ((l.take (sizePass f m l c).2.length).map (fun b => b.name)) := by
  intro l
  induction l with
  | nil => intro c; simp [sizePass]
  | cons b rest ih =>
    intro c
    by_cases h : m < c
    · simp only [sizePass, if_pos h]
      simpa using ih (c - b.size)
    · simp [sizePass, h]

theorem sizePass_necessary (f : String → Bool) (m : Int) :
    ∀ (l : List BucketInfo) (c : Int) (j : Nat),
      j < (sizePass f m l c).2.length →
      m < c - (((l.take j).map (fun b => b.size)).sum) := by
  intro l
  induction l with
  | nil => intro c j hj; simp [sizePass] at hj
  | cons b rest ih =>
    intro c j hj
    by_cases h : m < c
    · match j with
      | 0 => simpa using h
      | j + 1 =>
        simp only [sizePass, if_pos h] at hj
        have := ih (c - b.size) j (by simpa using hj)
        simp only [List.take_succ_cons, List.map_cons, List.sum_cons]
        omega
    · simp [sizePass, h] at hj

theorem sizePass_ignores_deleteOk (f g : String → Bool) (m : Int) :
    ∀ (l : List BucketInfo) (c : Int), sizePass f m l c = sizePass g m l c := by
  intro l
  induction l with
  | nil => intro c; rfl
  | cons b rest ih =>
    intro c
    by_cases h : m < c
    · simp [sizePass, h, ih]
    · simp [sizePass, h]

theorem cleanup_storage_ok (s : MinioState) (deleteOk : String → Bool)
    (now ms ma fs : Int) (deleted : List String)
    (h : cleanup_storage s deleteOk now ms ma = Except.ok (fs, deleted)) :
    oldBuckets s now ma = [] ∧
    fs = (sizePass deleteOk ms (sortedCandidates s now ma)
        (((sortedCandidates s now ma).map (fun b => b.size)).sum)).1 ∧
    deleted = (sizePass deleteOk ms (sortedCandidates s now ma)
        (((sortedCandidates s now ma).map (fun b => b.size)).sum)).2 := by
  unfold cleanup_storage at h
  cases ho : oldBuckets s now ma with
  | cons x xs => rw [ho] at h; simp at h
  | nil =>
    rw [ho] at h
    simp at h
    exact ⟨rfl, (congrArg Prod.fst h).symm, (congrArg Prod.snd h).symm⟩

theorem lastModifiedLe_trans : ∀ (a b c : BucketInfo),
    lastModifiedLe a b → lastModifiedLe b c → lastModifiedLe a c := by
  intro a b c hab hbc
  simp [lastModifiedLe] at *
  omega

theorem lastModifiedLe_total : ∀ (a b : BucketInfo),
    lastModifiedLe a b || lastModifiedLe b a := by
  intro a b
  simp [lastModifiedLe]
  omega



/-- The first component of the `get_bucket_info` fold is the accumulator
plus the sum of the object sizes. -/
theorem get_bucket_info_foldl (l : List MObject) : ∀ acc : Int × Int,
    (l.foldl (fun (acc : Int × Int) obj =>
      (acc.1 + obj.size, if obj.last_modified < acc.2 then obj.last_modified else acc.2)) acc).1
      = acc.1 + (l.map (fun o => o.size)).sum := by
  induction l with
  | nil => intro acc; simp
  | cons o rest ih =>
    intro acc
    simp only [List.foldl_cons, List.map_cons, List.sum_cons, ih]
    ring

/-- The size `get_bucket_info` reports is the sum of the object sizes. -/
theorem get_bucket_info_size (now : Int) (b : MBucket) :
    (get_bucket_info now b).size = (b.objects.map (fun o => o.size)).sum := by
  simpa [get_bucket_info] using get_bucket_info_foldl b.objects (0, now)

/-- `cleanup_storage` does not depend on the booleans `delete_bucket`
returns during the size pass. -/
theorem cleanup_storage_ignores_delete_result :
    ∀ (s : MinioState) (f g : String → Bool) (now max_size max_age : Int),
      cleanup_storage s f now max_size max_age
        = cleanup_storage s g now max_size max_age := by
  intro s f g now ms ma
  unfold cleanup_storage
  cases ho : oldBuckets s now ma with
  | cons x xs => rfl
  | nil => exact congrArg Except.ok (sizePass_ignores_deleteOk f g _ _ _)

/-! ### Claim theorems -/

/-- Claim C1: whenever `cleanup_storage` returns a pair
`(final_size, deleted_buckets)`, either `final_size ≤ max_size` or every
bucket retained by the age pass had its name recorded among the deleted
buckets by the size pass. -/
theorem cleanup_storage_quota_or_all_deleted
    (s : MinioState) (deleteOk : String → Bool) (now max_size max_age fs : Int)
    (deleted : List String)
    (h : cleanup_storage s deleteOk now max_size max_age = Except.ok (fs, deleted)) :
    fs ≤ max_size ∨ ∀ b ∈ newBuckets s now max_age, b.name ∈ deleted := by
  obtain ⟨-, hfs, hdel⟩ := cleanup_storage_ok _ _ _ _ _ _ _ h
  rcases sizePass_le_or_all deleteOk max_size (sortedCandidates s now max_age)
      (((sortedCandidates s now max_age).map (fun b => b.size)).sum) with h1 | h1
  · left; rw [hfs]; exact h1
  · right
    intro b hb
    rw [hdel, h1]
    have hb2 : b ∈ sortedCandidates s now max_age := by
      simpa [sortedCandidates] using hb
    exact List.mem_map_of_mem _ hb2

unseal List.merge List.mergeSort in
/-- Witness for C1: on the spec's scenario store with quota 70, the
conclusion holds at the concrete output `(60, ["bucketB"])`. -/
theorem cleanup_storage_quota_or_all_deleted_witness :
    (60 : Int) ≤ 70 ∨ ∀ b ∈ newBuckets sSpec tNow 3650, b.name ∈ ["bucketB"] :=
  cleanup_storage_quota_or_all_deleted sSpec (fun _ => true) tNow 70 3650 60 ["bucketB"] rfl

/-- Claim C2: the size pass never over-evicts.  Every bucket it deletes
was necessary: before the `j`-th deletion the total size of the buckets
still standing (the sorted candidates from position `j` on) exceeded
`max_size`, so the loop stops as soon as the running total is within the
quota. -/
theorem cleanup_storage_no_overeviction
    (s : MinioState) (deleteOk : String → Bool) (now max_size max_age fs : Int)
    (deleted : List String)
    (h : cleanup_storage s deleteOk now max_size max_age = Except.ok (fs, deleted))
    (j : Nat) (hj : j < deleted.length) :
    max_size < (((sortedCandidates s now max_age).drop j).map (fun b => b.size)).sum := by
  obtain ⟨-, -, hdel⟩ := cleanup_storage_ok _ _ _ _ _ _ _ h
  have hnec := sizePass_necessary deleteOk max_size (sortedCandidates s now max_age)
      (((sortedCandidates s now max_age).map (fun b => b.size)).sum) j (by rw [← hdel]; exact hj)
  have hsplit :
      ((((sortedCandidates s now max_age).map (fun b => b.size)).take j).sum : Int)
        + (((sortedCandidates s now max_age).map (fun b => b.size)).drop j).sum
        = ((sortedCandidates s now max_age).map (fun b => b.size)).sum :=
    List.sum_take_add_sum_drop _ _
  rw [← List.map_take] at hsplit
  rw [← List.map_drop] at hsplit
  omega

unseal List.merge List.mergeSort in
/-- Witness for C2: on the spec's scenario store the first deletion
(`j = 0`) happens while the remaining candidates still hold 660 > 70
bytes. -/
theorem cleanup_storage_no_overeviction_witness :
    (70 : Int) < (((sortedCandidates sSpec tNow 3650).drop 0).map (fun b => b.size)).sum :=
  cleanup_storage_no_overeviction sSpec (fun _ => true) tNow 70 3650 60 ["bucketB"]
    rfl 0 (by decide)

/-- Claim C3 (code bug): on a store holding a bucket 40 days old with
`max_age = 7`, `cleanup_storage` raises `AttributeError` instead of
deleting the over-age bucket and recording it, because the age pass
stores over-age buckets as plain `(name, age)` tuples and then reads
`.name` from a tuple. -/
theorem cleanup_storage_age_pass_crashes :
    cleanup_storage sC3 (fun _ => true) 3456000 1000000 7
      = Except.error (PyError.attributeError "tuple object has no attribute name") ∧
    (∃ b ∈ bucketList sC3 3456000, 7 < bucketAge 3456000 b.last_modified) :=
  ⟨rfl, by decide⟩

unseal List.merge List.mergeSort in
/-- Counterexample to claim C4 as stated: two retained candidates share
the same `last_modified` but are listed as `["bbb", "aaa"]`; the size
pass deletes them in listing order `["bbb", "aaa"]`, not in the
name order `["aaa", "bbb"]` the claim's tie-break predicts. -/
theorem cleanup_storage_tie_not_broken_by_name :
    cleanup_storage sC4 (fun _ => true) 0 (-1) 10 = Except.ok (0, ["bbb", "aaa"]) ∧
    (get_bucket_info 0 bB).last_modified = (get_bucket_info 0 bA).last_modified ∧
    ("aaa" : String) < "bbb" ∧ (["bbb", "aaa"] : List String) ≠ ["aaa", "bbb"] :=
  ⟨rfl, rfl, by rw [String.lt_iff_toList_lt]; decide, by decide⟩

/-- Claim C4 as amended: the size pass deletes a prefix of the retained
candidates sorted in nondecreasing `last_modified` order, and the sort is
stable: candidates in listing order whose `last_modified` values are
nondecreasing (ties included) keep their relative order, so the deletion
order is deterministic given the listing order — but ties are broken by
listing position, not by bucket name. -/
theorem cleanup_storage_deletion_order
    (s : MinioState) (deleteOk : String → Bool) (now max_size max_age fs : Int)
    (deleted : List String)
    (h : cleanup_storage s deleteOk now max_size max_age = Except.ok (fs, deleted)) :
    deleted = ((sortedCandidates s now max_age).take deleted.length).map (fun b => b.name) ∧
    (sortedCandidates s now max_age).Pairwise
      (fun a b => a.last_modified ≤ b.last_modified) ∧
    ∀ a b : BucketInfo, List.Sublist [a, b] (newBuckets s now max_age) →
      a.last_modified ≤ b.last_modified →
      List.Sublist [a, b] (sortedCandidates s now max_age) := by
  obtain ⟨-, -, hdel⟩ := cleanup_storage_ok _ _ _ _ _ _ _ h
  refine ⟨?_, ?_, ?_⟩
  · rw [hdel]; exact sizePass_names _ _ _ _
  · have hs := List.sorted_mergeSort lastModifiedLe_trans lastModifiedLe_total
      (newBuckets s now max_age)
    exact hs.imp (fun hab => by simpa [lastModifiedLe] using hab)
  · intro a b hsub hle
    exact List.pair_sublist_mergeSort lastModifiedLe_trans lastModifiedLe_total
      (by simpa [lastModifiedLe] using hle) hsub

unseal List.merge List.mergeSort in
/-- Witness for the amended C4: on the tie store the deleted names
`["bbb", "aaa"]` are exactly the names of the sorted-candidate prefix. -/
theorem cleanup_storage_deletion_order_witness :
    (["bbb", "aaa"] : List String)
      = ((sortedCandidates sC4 0 10).take (["bbb", "aaa"] : List String).length).map
          (fun b => b.name) :=
  (cleanup_storage_deletion_order sC4 (fun _ => true) 0 (-1) 10 0 ["bbb", "aaa"] (by rfl)).1

/-- Claim C5: `get_storage_used` equals the sum over the listed buckets
of the size `get_bucket_info` computes, equivalently the sum of all
object sizes; it does not depend on the worker-pool size, and it is 0 on
an empty bucket list. -/
theorem get_storage_used_eq_sum (s : MinioState) (threads : Nat) (now : Int) :
    get_storage_used s threads now
      = (s.buckets.map (fun b => (get_bucket_info now b).size)).sum ∧
    get_storage_used s threads now
      = (s.buckets.map (fun b => (b.objects.map (fun o => o.size)).sum)).sum ∧
    get_storage_used s threads now = get_storage_used s 1 now ∧
    get_storage_used { buckets := [] } threads now = 0 := by
  have h1 : ∀ (t : MinioState) (n : Nat), get_storage_used t n now
      = (t.buckets.map (fun b => (get_bucket_info now b).size)).sum := by
    intro t n
    unfold get_storage_used threadPoolMap
    rcases t with ⟨bs⟩
    cases bs with
    | nil => simp
    | cons b rest => simp
  refine ⟨h1 s threads, ?_, by rw [h1, h1], by simp [get_storage_used]⟩
  rw [h1]
  simp only [get_bucket_info_size]

/-- Claim C6 (code bug): when `fget_object` raises, `get_file` surfaces
an `UnboundLocalError` from the `finally` block without any release of a
response handle (second component `false`); only the success path
releases the response. -/
theorem get_file_error_path_skips_release :
    get_file (Except.error "NoSuchKey")
      = (Except.error (PyError.unboundLocalError
          "local variable resp referenced before assignment"), false) ∧
    get_file (Except.ok ()) = (Except.ok (), true) :=
  ⟨rfl, rfl⟩

/-- Claim C7 (code bug): `MinioStore.cleanup_storage` declares `max_age`
with no default, so the repository's own test call
`cleanup_storage(70)` — and any call omitting `max_age` — raises
`TypeError` instead of returning a `(finalSize, deletedBuckets)` pair. -/
theorem cleanup_storage_call_omitting_max_age_fails :
    cleanup_storage_call sTest (fun _ => true) 1634000000 70 none
      = Except.error (PyError.typeError
          "cleanup_storage missing 1 required positional argument max_age") ∧
    (∀ (s : MinioState) (deleteOk : String → Bool) (now max_size : Int),
      cleanup_storage_call s deleteOk now max_size none
        = Except.error (PyError.typeError
            "cleanup_storage missing 1 required positional argument max_age")) :=
  ⟨rfl, fun _ _ _ _ => rfl⟩

/-- Claim C8: `delete_bucket` on a bucket name absent from the store
returns `True` and issues no remove-object or remove-bucket call. -/
theorem delete_bucket_absent_noop (s : MinioState) (bucket : String)
    (h : ∀ b ∈ s.buckets, b.name ≠ bucket) :
    delete_bucket s bucket = (true, []) := by
  have hf : s.findBucket bucket = none := by
    rw [MinioState.findBucket, List.find?_eq_none]
    intro b hb
    simpa using h b hb
  unfold delete_bucket
  rw [hf]

/-- Witness for C8: deleting the absent bucket `missing-bucket` from a
store holding only `present` is a successful no-op. -/
theorem delete_bucket_absent_noop_witness :
    delete_bucket sC8 "missing-bucket" = (true, []) :=
  delete_bucket_absent_noop sC8 "missing-bucket" (by decide)

/-- Claim C9: whenever some listed bucket's age in whole days exceeds
`max_age`, `cleanup_storage` raises `AttributeError` (the age pass reads
`.name` from the plain `(name, age)` tuples it stored), so the age
deletion path never completes. -/
theorem cleanup_storage_age_pass_attribute_error
    (s : MinioState) (deleteOk : String → Bool) (now max_size max_age : Int)
    (h : ∃ b ∈ bucketList s now, max_age < bucketAge now b.last_modified) :
    cleanup_storage s deleteOk now max_size max_age
      = Except.error (PyError.attributeError "tuple object has no attribute name") := by
  obtain ⟨b, hb, hage⟩ := h
  have hmem : (b.name, bucketAge now b.last_modified) ∈ oldBuckets s now max_age :=
    List.mem_map_of_mem _ (List.mem_filter.2 ⟨hb, by simpa using hage⟩)
  have hne := List.ne_nil_of_mem hmem
  cases ho : oldBuckets s now max_age with
  | nil => exact absurd ho hne
  | cons x xs =>
    unfold cleanup_storage
    rw [ho]

/-- Witness for C9: a store whose only bucket is 31 days old with
`max_age = 30` makes `cleanup_storage` raise `AttributeError`. -/
theorem cleanup_storage_age_pass_attribute_error_witness :
    cleanup_storage sC9 (fun _ => true) 2678400 100 30
      = Except.error (PyError.attributeError "tuple object has no attribute name") :=
  cleanup_storage_age_pass_attribute_error sC9 (fun _ => true) 2678400 100 30 (by decide)

unseal List.merge List.mergeSort in
/-- Claim C10: `cleanup_storage` ignores the boolean result of
`delete_bucket` in the size pass — its outcome is identical for every
delete-result function — and concretely, with every deletion failing it
still reports `(60, ["bucketB"])` on the scenario store even though the
storage actually in use (660 bytes, per `get_storage_used`) is larger. -/
theorem cleanup_storage_ignores_delete_failures :
    (∀ (s : MinioState) (f g : String → Bool) (now max_size max_age : Int),
      cleanup_storage s f now max_size max_age
        = cleanup_storage s g now max_size max_age) ∧
    cleanup_storage sSpec (fun _ => false) tNow 70 3650 = Except.ok (60, ["bucketB"]) ∧
    get_storage_used sSpec 1 tNow = 660 :=
  ⟨cleanup_storage_ignores_delete_result, rfl, rfl⟩

end ServicexStorage
